import Mathlib

/-!
Verification of the Regulatory-Search-Agent core against its specification.

This file gives a shallow embedding, in Lean 4, of the core data model and
operations of the repository:

* `ConversationContext` and its operations (src/app/services/context_manager.py);
* `TextChunkingService.chunk_text` (src/app/services/document_processing.py);
* `VectorStoreService` — load, add_documents, search, get_stats
  (src/app/services/vector_store.py), with the FAISS `IndexFlatL2` index
  modelled as a list of rational vectors and its `search` as a
  sort-by-squared-L2-distance followed by `take k`;
* `AgenticOrchestrator.retrieve_and_index` (src/app/core/orchestrator.py),
  with scrapers and document processing treated as oracles;
* `ComparativeAnalysisService` grouping and prompt-section construction
  (src/app/services/comparative_analysis.py).

Machine floats are modelled as `ℚ`; external calls (OpenAI embeddings,
scraper downloads, document processing) are modelled as explicit function
parameters returning `Except`.  Python exceptions become `Except` values;
Python `dict` metadata records become structures.
-/

namespace RegSearch

/-! ### ConversationContext (src/app/services/context_manager.py)

Timestamps (`datetime.now()`) are modelled by passing the current time as a
`Nat` argument to every mutating operation. -/

structure ConversationContext where
  current_drug : Option String
  agencies : List String
  topics : List String
  documents_indexed : List String
  last_updated : Nat
deriving DecidableEq

/-- `ConversationContext.__init__`: no drug, default agencies, empty sets. -/
def ConversationContext.init : ConversationContext :=
  { current_drug := none
    agencies := ["FDA", "EMA"]
    topics := []
    documents_indexed := []
    last_updated := 0 }

/-- `ConversationContext.update_drug`: on a (case-sensitive) change of drug
name, replace the drug, reset the topic list, and refresh `last_updated`;
otherwise do nothing at all. -/
def update_drug (c : ConversationContext) (drug_name : String) (now : Nat) :
    ConversationContext :=
  if c.current_drug ≠ some drug_name then
    { c with current_drug := some drug_name, topics := [], last_updated := now }
  else
    c

/-- `ConversationContext.add_document`: append the path if not already
recorded, and refresh `last_updated` unconditionally. -/
def add_document (c : ConversationContext) (document_path : String) (now : Nat) :
    ConversationContext :=
  let c' :=
    if document_path ∈ c.documents_indexed then c
    else { c with documents_indexed := c.documents_indexed ++ [document_path] }
  { c' with last_updated := now }

/-- Python's `str.lower()`, modelled character by character (ASCII case
folding), as used by `needs_new_documents` and `has_documents_for_drug`. -/
def py_lower (s : String) : List Char :=
  s.toList.map Char.toLower

/-- `ConversationContext.needs_new_documents`: true when no drug is set, when
the drug differs case-insensitively, or when no documents are indexed. -/
def needs_new_documents (c : ConversationContext) (drug_name : String) : Bool :=
  match c.current_drug with
  | none => true
  | some d =>
    if py_lower d ≠ py_lower drug_name then true
    else if c.documents_indexed.length = 0 then true
    else false

/-! ### TextChunkingService.chunk_text (src/app/services/document_processing.py) -/

/-- Whitespace in the sense of Python's `str.strip` / `str.isspace`
(ASCII whitespace characters). -/
def py_isspace (c : Char) : Bool :=
  c = ' ' || c = '\t' || c = '\n' || c = '\r' || c = '\x0b' || c = '\x0c'

/-- The `while start < text_length` loop of `chunk_text`: take the window
`text[start : start + chunk_size]`, keep it when it is not pure whitespace
(`if chunk.strip()`), and advance `start` by `chunk_size - overlap`. -/
def chunk_loop (t : List Char) (cs ov : Nat) (hov : ov < cs) (start : Nat) :
    List String :=
  if h : start < t.length then
    let chunk := (t.drop start).take cs
    (if chunk.any (fun c => !py_isspace c) then [String.mk chunk] else []) ++
      chunk_loop t cs ov hov (start + (cs - ov))
  else
    []
termination_by t.length - start
decreasing_by
  simp_wf
  omega

/-- `TextChunkingService.chunk_text`: validate `chunk_size`, `overlap` and the
text (in that order), then run the sliding-window loop.  A raised
`ValueError` is modelled as `Except.error` carrying the message. -/
def chunk_text (text : String) (chunk_size overlap : Int) :
    Except String (List String) :=
  if h1 : chunk_size ≤ 0 then .error "chunk_size must be positive"
  else if h2 : overlap < 0 then .error "overlap cannot be negative"
  else if h3 : overlap ≥ chunk_size then .error "overlap must be less than chunk_size"
  else if h4 : text.toList.all py_isspace then .error "Text cannot be empty"
  else .ok (chunk_loop text.toList chunk_size.toNat overlap.toNat (by omega) 0)

/-! ### VectorStoreService (src/app/services/vector_store.py)

Embedding vectors are lists of rationals; the FAISS `IndexFlatL2` index is
the list of vectors in insertion order; OpenAI embedding calls are an
explicit oracle `String → Except String Vec` (errors model a raised
exception in `generate_embedding`). -/

abbrev Vec := List ℚ

/-- One record of `self.metadata`, as built in `add_documents`. -/
structure ChunkMeta where
  chunk_id : Nat
  chunk_text : String
  chunk_index : Nat
  source_document : String
  file_path : String
  total_chunks : Nat
deriving DecidableEq

/-- In-memory state of `VectorStoreService`: the FAISS index (`self.index`)
and the metadata list (`self.metadata`). -/
structure StoreState where
  index : List Vec
  metadata : List ChunkMeta
deriving DecidableEq

def StoreState.emptyStore : StoreState := ⟨[], []⟩

/-- The `doc_metadata` dict passed to `add_documents`; `none` models a missing
`num_chunks` key (`doc_metadata.get("num_chunks", len(chunks))`). -/
structure DocMetadata where
  file_name : String
  file_path : String
  num_chunks : Option Nat

/-- A file on disk as `_load_index` sees it: missing, readable with content,
or present but raising on read. -/
inductive StoredFile (α : Type) where
  | absent : StoredFile α
  | corrupt : StoredFile α
  | valid : α → StoredFile α

def StoredFile.present {α : Type} : StoredFile α → Bool
  | .absent => false
  | .corrupt => true
  | .valid _ => true

def StoredFile.read {α : Type} : StoredFile α → Option α
  | .valid a => some a
  | _ => none

/-- `VectorStoreService._load_index`: if both files exist, read both (any
raised error reinitializes both structures empty); otherwise start empty.
No count-consistency check is performed on successfully read files. -/
def load_index (index_file : StoredFile (List Vec))
    (metadata_file : StoredFile (List ChunkMeta)) : StoreState :=
  if index_file.present && metadata_file.present then
    match index_file.read, metadata_file.read with
    | some v, some m => ⟨v, m⟩
    | _, _ => StoreState.emptyStore
  else
    StoreState.emptyStore

/-- The chunk loop of `add_documents`: `i` is the `enumerate` counter,
`meta_len` is `len(self.metadata)` at the time each record is appended.
Returns the successful embeddings, their metadata records, and the logged
per-chunk error messages, in order. -/
def process_chunks (embed : String → Except String Vec) (dm : DocMetadata)
    (nchunks : Nat) :
    List String → Nat → Nat → List Vec × List ChunkMeta × List String
  | [], _, _ => ([], [], [])
  | chunk :: rest, i, meta_len =>
    match embed chunk with
    | .ok v =>
      let m : ChunkMeta :=
        { chunk_id := meta_len
          chunk_text := chunk
          chunk_index := i
          source_document := dm.file_name
          file_path := dm.file_path
          total_chunks := dm.num_chunks.getD nchunks }
      let r := process_chunks embed dm nchunks rest (i + 1) (meta_len + 1)
      (v :: r.1, m :: r.2.1, r.2.2)
    | .error e =>
      let r := process_chunks embed dm nchunks rest (i + 1) meta_len
      (r.1, r.2.1, ("Error processing chunk " ++ toString i ++ ": " ++ e) :: r.2.2)

/-- Result of a successful `add_documents` call: the new store state, the
count of ingested chunks, and the logged skipped-chunk messages. -/
structure IngestOutcome where
  state : StoreState
  ingested : Nat
  skipped : List String
deriving DecidableEq

/-- `VectorStoreService.add_documents`: reject an empty batch, embed each
chunk (skipping failures), fail when no embedding succeeded, otherwise append
embeddings to the index and records to the metadata list. -/
def add_documents (embed : String → Except String Vec) (chunks : List String)
    (dm : DocMetadata) (st : StoreState) : Except String IngestOutcome :=
  if chunks.isEmpty then .error "No chunks provided"
  else if (process_chunks embed dm chunks.length chunks 0 st.metadata.length).1.isEmpty then
    .error "No embeddings generated successfully"
  else
    .ok ⟨⟨st.index ++ (process_chunks embed dm chunks.length chunks 0 st.metadata.length).1,
          st.metadata ++ (process_chunks embed dm chunks.length chunks 0 st.metadata.length).2.1⟩,
         (process_chunks embed dm chunks.length chunks 0 st.metadata.length).1.length,
         (process_chunks embed dm chunks.length chunks 0 st.metadata.length).2.2⟩

/-- True exactly when the oracle call succeeded. -/
def embed_ok (r : Except String Vec) : Bool :=
  match r with
  | .ok _ => true
  | .error _ => false

/-- Concrete embedding oracle for witnesses: fails on the chunk "bad". -/
def embedW : String → Except String Vec :=
  fun c => if c = "bad" then .error "boom" else .ok [(1 : ℚ)]

def dmW : DocMetadata := ⟨"doc.pdf", "/tmp/doc.pdf", none⟩

/-- The outcome of `add_documents embedW ["alpha", "bad"] dmW` on the empty
store: one chunk ingested, one skipped. -/
def addOutcomeW : IngestOutcome :=
  ⟨⟨[[(1 : ℚ)]], [⟨0, "alpha", 0, "doc.pdf", "/tmp/doc.pdf", 2⟩]⟩,
   1, ["Error processing chunk 1: boom"]⟩

/-! ### search and get_stats (src/app/services/vector_store.py)

FAISS `IndexFlatL2.search` returns the `k` nearest stored vectors by squared
L2 distance, in ascending distance order; it is modelled as sorting the
enumerated vectors by distance and taking `k`.  The `-1` padding FAISS emits
when `k` exceeds `ntotal` is modelled by the sorted list simply running out
— the Python guard `idx >= 0` discards exactly that padding. -/

/-- Squared L2 distance between two vectors (FAISS `IndexFlatL2` metric). -/
def sq_dist (a b : Vec) : ℚ :=
  (List.zipWith (fun x y => (x - y) * (x - y)) a b).sum

/-- Pairs each vector with its row position (handle), starting at `i`. -/
def enum_from {α : Type} (i : Nat) : List α → List (Nat × α)
  | [] => []
  | a :: rest => (i, a) :: enum_from (i + 1) rest

/-- Comparison of (handle, distance) pairs by distance, used to model the
ascending-distance order of FAISS search results. -/
def distLE (a b : Nat × ℚ) : Prop := a.2 ≤ b.2

instance : DecidableRel distLE :=
  fun a b => inferInstanceAs (Decidable (a.2 ≤ b.2))

instance : IsTotal (Nat × ℚ) distLE :=
  ⟨fun a b => le_total a.2 b.2⟩

instance : IsTrans (Nat × ℚ) distLE :=
  ⟨fun _ _ _ hab hbc => le_trans hab hbc⟩

/-- `faiss.IndexFlatL2.search`: the `k` nearest (row, distance) pairs in
ascending distance order. -/
def faiss_search (vecs : List Vec) (q : Vec) (k : Nat) : List (Nat × ℚ) :=
  (((enum_from 0 vecs).map (fun p => (p.1, sq_dist q p.2))).insertionSort distLE).take k

/-- One search result as assembled by `VectorStoreService.search`: the copied
metadata record, its handle (`idx`), the distance and the derived similarity. -/
structure ScoredFragment where
  meta : ChunkMeta
  handle : Nat
  distance : ℚ
  similarity_score : ℚ

/-- `VectorStoreService.search`, given the already-embedded query vector:
empty metadata short-circuits to `[]`; otherwise `k` is clamped to the
metadata count, the FAISS index is searched, and each hit whose index passes
the `0 ≤ idx < len(metadata)` guard is paired with its metadata record,
distance, and similarity `1 / (1 + distance)`. -/
def search_state (st : StoreState) (qv : Vec) (k : Nat) : List ScoredFragment :=
  if st.metadata.isEmpty then []
  else
    (faiss_search st.index qv (min k st.metadata.length)).filterMap
      (fun p => (st.metadata[p.1]?).map
        (fun m => ⟨m, p.1, p.2, 1 / (1 + p.2)⟩))

/-- `VectorStoreService.get_stats`. -/
structure StoreStats where
  total_vectors : Nat
  dimension : Nat
  unique_documents : Nat

def get_stats (st : StoreState) : StoreStats :=
  { total_vectors := st.metadata.length
    dimension := 1536
    unique_documents := (st.metadata.map (fun m => m.source_document)).dedup.length }

/-- One `add_documents` call with its embedding oracle and arguments. -/
structure AddCall where
  embed : String → Except String Vec
  chunks : List String
  dm : DocMetadata

/-- Effect of one `add_documents` call on the service state: a raised
exception leaves `self.index` and `self.metadata` unchanged (no successful
embedding means nothing was appended). -/
def apply_call (st : StoreState) (call : AddCall) : StoreState :=
  match add_documents call.embed call.chunks call.dm st with
  | .ok r => r.state
  | .error _ => st

/-- State after a sequence of `add_documents` calls on a store that started
empty. -/
def run_calls (calls : List AddCall) : StoreState :=
  calls.foldl apply_call StoreState.emptyStore

/-- Concrete call sequence for the C2 witness. -/
def callsW : List AddCall :=
  [⟨fun _ => .ok [(2 : ℚ)], ["alpha"], ⟨"w.pdf", "/w.pdf", none⟩⟩]

/-- The single fragment returned by searching the C2 witness store. -/
def fragW : ScoredFragment :=
  ⟨⟨0, "alpha", 0, "w.pdf", "/w.pdf", 1⟩, 0,
   sq_dist [(0 : ℚ)] [(2 : ℚ)], 1 / (1 + sq_dist [(0 : ℚ)] [(2 : ℚ)])⟩

/-- Concrete two-vector store for the C6 and C7 witnesses. -/
def stW : StoreState :=
  ⟨[[(0 : ℚ)], [(3 : ℚ)]],
   [⟨0, "a", 0, "d1.pdf", "/d1.pdf", 1⟩, ⟨1, "b", 0, "d2.pdf", "/d2.pdf", 1⟩]⟩

/-! ### AgenticOrchestrator.retrieve_and_index (src/app/core/orchestrator.py)

Scraper downloads (`search_and_download`) and the per-file pipeline
(`process_document` + `vector_store.add_documents`) are oracles returning
`Except`; a `.error` models a raised exception. -/

/-- The orchestrator's `results` dict (the fields the claims concern).
`error_msg` is the `'error'` key of the early-return misconfiguration dict. -/
structure RunOutcome where
  status : String
  error_msg : Option String
  drug_name : String
  agencies_searched : List String
  documents_downloaded : List String
  documents_indexed : Nat
  errors : List String
deriving DecidableEq

/-- `self.scrapers.keys()`: the known agencies. -/
def known_agencies : List String := ["FDA", "EMA"]

/-- Agencies after defaulting (`agencies is None`) and filtering out unknown
names (which are only warned about, never raised). -/
def valid_of (agencies : Option (List String)) : List String :=
  (agencies.getD known_agencies).filter (fun a => known_agencies.contains a)

/-- Indexing one downloaded file: on success increment `documents_indexed`,
on any exception append an error entry and continue. -/
def index_one (indexDoc : String → Except String Unit) (acc : RunOutcome)
    (f : String) : RunOutcome :=
  match indexDoc f with
  | .ok _ => { acc with documents_indexed := acc.documents_indexed + 1 }
  | .error e => { acc with errors := acc.errors ++ ["Error indexing " ++ f ++ ": " ++ e] }

/-- Processing one agency: record it as searched; a failed download appends
an error entry; an empty download appends a "No documents found" entry;
otherwise record the downloads and index each file independently. -/
def process_agency (download : String → Except String (List String))
    (indexDoc : String → Except String Unit) (acc : RunOutcome)
    (agency : String) : RunOutcome :=
  let acc1 := { acc with agencies_searched := acc.agencies_searched ++ [agency] }
  match download agency with
  | .error e => { acc1 with errors := acc1.errors ++ ["Error processing " ++ agency ++ ": " ++ e] }
  | .ok [] => { acc1 with errors := acc1.errors ++ [agency ++ ": No documents found"] }
  | .ok (f :: fs) =>
    (f :: fs).foldl (index_one indexDoc)
      { acc1 with documents_downloaded := acc1.documents_downloaded ++ (f :: fs) }

/-- `AgenticOrchestrator.retrieve_and_index`. -/
def retrieve_and_index (download : String → Except String (List String))
    (indexDoc : String → Except String Unit) (drug : String)
    (agencies : Option (List String)) : RunOutcome :=
  if (valid_of agencies).isEmpty then
    { status := "error", error_msg := some "No valid agencies specified",
      drug_name := drug, agencies_searched := [], documents_downloaded := [],
      documents_indexed := 0, errors := [] }
  else
    (valid_of agencies).foldl (process_agency download indexDoc)
      { status := "success", error_msg := none, drug_name := drug,
        agencies_searched := [], documents_downloaded := [],
        documents_indexed := 0, errors := [] }

/-- Concrete oracles for the C5 witness and example: five candidate files
from FDA, of which exactly `f3` fails to index. -/
def downloadW5 : String → Except String (List String) :=
  fun a => if a = "FDA" then .ok ["f1", "f2", "f3", "f4", "f5"] else .error "offline"

def indexW5 : String → Except String Unit :=
  fun f => if f = "f3" then .error "download failed" else .ok ()

/-- Download oracle that finds nothing, for the zero-documents clause. -/
def downloadNone : String → Except String (List String) :=
  fun _ => .ok []

/-! ### ComparativeAnalysisService (src/app/services/comparative_analysis.py)

`_organize_by_agency` builds a `dict[str, list]` in insertion order
(modelled as an association list), `_extract_agency` resolves provenance,
and `_build_comparative_prompt` iterates the requested agencies in order,
emitting one labeled section per agency. -/

/-- A context chunk as seen by the comparative-analysis service. -/
structure ContextChunk where
  agency : Option String
  document : String
  text : String
deriving DecidableEq

/-- Does `needle` occur at the start of `hay`? (building block for Python's
substring containment test). -/
def matches_at : List Char → List Char → Bool
  | [], _ => true
  | _ :: _, [] => false
  | a :: ns, b :: hs => a == b && matches_at ns hs

/-- Does `needle` occur anywhere in `hay`? -/
def contains_sub (needle : List Char) : List Char → Bool
  | [] => matches_at needle []
  | b :: hs => matches_at needle (b :: hs) || contains_sub needle hs

/-- Python's `needle in hay` on strings. -/
def str_contains (hay needle : String) : Bool :=
  contains_sub needle.toList hay.toList

/-- Python's `str.upper()`, modelled character by character. -/
def py_upper (s : String) : String :=
  String.mk (s.toList.map Char.toUpper)

/-- `ComparativeAnalysisService._extract_agency`: explicit provenance field
first, else pattern match against known agency tokens in the uppercased
document name, else "Unknown". -/
def extract_agency (c : ContextChunk) : String :=
  match c.agency with
  | some a => a
  | none =>
    let d := py_upper c.document
    if str_contains d "FDA" then "FDA"
    else if str_contains d "EMA" || str_contains d "EPAR" || str_contains d "CHMP" then "EMA"
    else if str_contains d "HEALTH CANADA" || str_contains d "HPFB" then "Health Canada"
    else if str_contains d "TGA" then "TGA"
    else if str_contains d "SWISSMEDIC" then "Swissmedic"
    else if str_contains d "NHRA" then "NHRA"
    else "Unknown"

/-- Append a chunk to its agency's group, creating the group at the end on
first sight (Python dict insertion order). -/
def add_to_group : List (String × List ContextChunk) → String → ContextChunk →
    List (String × List ContextChunk)
  | [], a, c => [(a, [c])]
  | (b, l) :: rest, a, c =>
    if b = a then (b, l ++ [c]) :: rest
    else (b, l) :: add_to_group rest a c

/-- `ComparativeAnalysisService._organize_by_agency`. -/
def organize_by_agency (cs : List ContextChunk) : List (String × List ContextChunk) :=
  cs.foldl (fun g c => add_to_group g (extract_agency c) c) []

/-- Dict lookup on the association list (`agency in agency_contexts` and
`agency_contexts[agency]` combined). -/
def group_lookup : List (String × List ContextChunk) → String → Option (List ContextChunk)
  | [], _ => none
  | (b, l) :: rest, a => if b = a then some l else group_lookup rest a

/-- One labeled section of the comparative prompt: either up to five
fragments for the agency, or the explicit no-documents marker. -/
inductive PromptSection where
  | docs : String → List ContextChunk → PromptSection
  | noDocs : String → PromptSection
deriving DecidableEq

/-- The section loop of `_build_comparative_prompt`: one section per
requested agency, in the requested order; present groups contribute their
first five chunks (`[:5]`), absent groups the no-documents marker. -/
def build_sections (gs : List (String × List ContextChunk))
    (agencies : List String) : List PromptSection :=
  agencies.map (fun a =>
    match group_lookup gs a with
    | some l => .docs a (l.take 5)
    | none => .noDocs a)

def section_label : PromptSection → String
  | .docs a _ => a
  | .noDocs a => a

/-- Rendering of one section as in the Python f-strings (document text
truncated to 1000 characters, fragments numbered from 1). -/
def render_section : PromptSection → String
  | .docs a l =>
    "### " ++ a ++ " Documents:\n\n" ++
      String.join ((enum_from 1 l).map (fun p =>
        "**" ++ a ++ " Document " ++ toString p.1 ++ ":** " ++ p.2.document ++ "\n" ++
        "```\n" ++ String.mk (p.2.text.toList.take 1000) ++ "...\n```\n\n"))
  | .noDocs a =>
    "### " ++ a ++ " Documents:\n\n" ++ "*No documents available from this agency.*\n\n"

/-- `_build_comparative_prompt` up to the fixed instruction suffix: the query
header followed by the rendered sections in requested-agency order. -/
def build_comparative_prompt (query : String)
    (gs : List (String × List ContextChunk)) (agencies : List String) : String :=
  "**User Question:** " ++ query ++ "\n\n" ++ "**Regulatory Documents by Agency:**\n\n" ++
    String.join ((build_sections gs agencies).map render_section)

/-- Concrete chunk for the C9 witness. -/
def ctxW : ContextChunk := ⟨some "FDA", "fda_review.pdf", "summary text"⟩

/-! ### Theorems for claims C3, C8, C10 -/

/-- C3: `needs_new_documents(name)` returns true iff no subject is set, or the
name differs from the current subject case-insensitively, or no documents have
been indexed; it is true for a brand-new session, false immediately after a
successful `add_document` for the (case-insensitively) same subject, and true
again after `update_drug` to a (case-insensitively) different name. -/
theorem needs_new_documents_spec (c : ConversationContext) (name : String) :
    (needs_new_documents c name = true ↔
      c.current_drug = none ∨
      (∃ d, c.current_drug = some d ∧ py_lower d ≠ py_lower name) ∨
      c.documents_indexed = []) ∧
    needs_new_documents ConversationContext.init name = true ∧
    (∀ d path now, c.current_drug = some d → py_lower d = py_lower name →
      needs_new_documents (add_document c path now) name = false) ∧
    (∀ other now, py_lower other ≠ py_lower name →
      needs_new_documents (update_drug c other now) name = true) := by
  refine ⟨?_, ?_, ?_, ?_⟩
  · unfold needs_new_documents
    cases hd : c.current_drug with
    | none => simp
    | some d =>
      by_cases hne : py_lower d = py_lower name
      · simp [hne, List.length_eq_zero]
      · simp [hne]
  · rfl
  · intro d path now hd hlow
    have hne : c.documents_indexed ≠ [] ∨ True := Or.inr trivial
    unfold add_document needs_new_documents
    by_cases hmem : path ∈ c.documents_indexed
    · rw [if_pos hmem]
      have hlen : c.documents_indexed.length ≠ 0 := by
        intro h0
        rw [List.length_eq_zero] at h0
        rw [h0] at hmem
        exact absurd hmem (List.not_mem_nil path)
      simp [hd, hlow, hlen]
    · rw [if_neg hmem]
      simp [hd, hlow]
  · intro other now hlow
    unfold update_drug needs_new_documents
    by_cases hcur : c.current_drug = some other
    · rw [if_neg (by simp [hcur])]
      simp [hcur, hlow]
    · rw [if_pos hcur]
      simp [hlow]

/-- Witness for C3 at concrete inputs: recording a document for "Aspirin" then
asking about "aspirin" needs no new documents; switching to "Ibuprofen" makes
"aspirin" need new documents again. -/
theorem needs_new_documents_spec_witness :
    needs_new_documents
      (add_document (update_drug ConversationContext.init "Aspirin" 0) "label.pdf" 1)
      "aspirin" = false ∧
    needs_new_documents (update_drug ConversationContext.init "Ibuprofen" 2)
      "aspirin" = true := by
  constructor
  · exact (needs_new_documents_spec
      (update_drug ConversationContext.init "Aspirin" 0) "aspirin").2.2.1
      "Aspirin" "label.pdf" 1 (by decide) (by decide)
  · exact (needs_new_documents_spec ConversationContext.init "aspirin").2.2.2
      "Ibuprofen" 2 (by decide)

/-- C8: `update_drug` with a (case-sensitively) different name replaces the
subject, clears the topic set and refreshes the timestamp; with the same name
it leaves the context entirely unchanged. -/
theorem update_drug_spec (c : ConversationContext) (name : String) (now : Nat) :
    (c.current_drug ≠ some name →
      update_drug c name now =
        { c with current_drug := some name, topics := [], last_updated := now }) ∧
    (c.current_drug = some name → update_drug c name now = c) := by
  constructor
  · intro h
    simp [update_drug, h]
  · intro h
    simp [update_drug, h]

/-- Witness for C8: switching from no drug to "DrugA" clears topics and sets
the drug; calling again with "DrugA" is a no-op. -/
theorem update_drug_spec_witness :
    update_drug ConversationContext.init "DrugA" 5 =
      { ConversationContext.init with
          current_drug := some "DrugA", topics := [], last_updated := 5 } ∧
    update_drug (update_drug ConversationContext.init "DrugA" 5) "DrugA" 9 =
      update_drug ConversationContext.init "DrugA" 5 := by
  constructor
  · exact (update_drug_spec ConversationContext.init "DrugA" 5).1 (by decide)
  · exact (update_drug_spec (update_drug ConversationContext.init "DrugA" 5)
      "DrugA" 9).2 (by decide)

/-- C10: `chunk_text` rejects non-positive `chunk_size`, negative `overlap`,
`overlap ≥ chunk_size`, and empty or all-whitespace text — in that order,
before any chunking — and these are exactly the inputs on which it errors. -/
theorem chunk_text_rejects (text : String) (chunk_size overlap : Int) :
    (chunk_size ≤ 0 →
      chunk_text text chunk_size overlap = .error "chunk_size must be positive") ∧
    (¬chunk_size ≤ 0 → overlap < 0 →
      chunk_text text chunk_size overlap = .error "overlap cannot be negative") ∧
    (¬chunk_size ≤ 0 → ¬overlap < 0 → overlap ≥ chunk_size →
      chunk_text text chunk_size overlap = .error "overlap must be less than chunk_size") ∧
    (¬chunk_size ≤ 0 → ¬overlap < 0 → ¬overlap ≥ chunk_size →
      text.toList.all py_isspace = true →
      chunk_text text chunk_size overlap = .error "Text cannot be empty") ∧
    ((∃ e, chunk_text text chunk_size overlap = .error e) ↔
      (chunk_size ≤ 0 ∨ overlap < 0 ∨ overlap ≥ chunk_size ∨
        text.toList.all py_isspace = true)) := by
  refine ⟨?_, ?_, ?_, ?_, ?_⟩
  · intro h1
    unfold chunk_text
    rw [dif_pos h1]
  · intro h1 h2
    unfold chunk_text
    rw [dif_neg h1, dif_pos h2]
  · intro h1 h2 h3
    unfold chunk_text
    rw [dif_neg h1, dif_neg h2, dif_pos h3]
  · intro h1 h2 h3 h4
    unfold chunk_text
    rw [dif_neg h1, dif_neg h2, dif_neg h3, dif_pos h4]
  · constructor
    · rintro ⟨e, he⟩
      by_cases h1 : chunk_size ≤ 0
      · exact Or.inl h1
      by_cases h2 : overlap < 0
      · exact Or.inr (Or.inl h2)
      by_cases h3 : overlap ≥ chunk_size
      · exact Or.inr (Or.inr (Or.inl h3))
      by_cases h4 : text.toList.all py_isspace = true
      · exact Or.inr (Or.inr (Or.inr h4))
      · exfalso
        unfold chunk_text at he
        rw [dif_neg h1, dif_neg h2, dif_neg h3, dif_neg h4] at he
        exact Except.noConfusion he
    · intro h
      unfold chunk_text
      by_cases h1 : chunk_size ≤ 0
      · rw [dif_pos h1]
        exact ⟨_, rfl⟩
      rw [dif_neg h1]
      by_cases h2 : overlap < 0
      · rw [dif_pos h2]
        exact ⟨_, rfl⟩
      rw [dif_neg h2]
      by_cases h3 : overlap ≥ chunk_size
      · rw [dif_pos h3]
        exact ⟨_, rfl⟩
      rw [dif_neg h3]
      have h4 : text.toList.all py_isspace = true := by
        rcases h with h | h | h | h
        · exact absurd h h1
        · exact absurd h h2
        · exact absurd h h3
        · exact h
      rw [dif_pos h4]
      exact ⟨_, rfl⟩

/-- Witness for C10: whitespace-only text is rejected with "Text cannot be
empty"; a zero `chunk_size` is rejected first. -/
theorem chunk_text_rejects_witness :
    chunk_text "  \n " 1000 100 = .error "Text cannot be empty" ∧
    chunk_text "hello" 0 0 = .error "chunk_size must be positive" := by
  constructor
  · exact (chunk_text_rejects "  \n " 1000 100).2.2.2.1
      (by decide) (by decide) (by decide) (by decide)
  · exact (chunk_text_rejects "hello" 0 0).1 (by decide)

/-! ### Theorems for claims C1 and C4 -/

/-- C1 counterexample: a persisted state whose index file holds one vector
while the metadata file holds zero records (different handle counts) is NOT
reinitialized empty by `_load_index` — both mismatched structures are kept. -/
theorem load_index_mismatch_counterexample :
    ([[(0 : ℚ)]] : List Vec).length ≠ ([] : List ChunkMeta).length ∧
    load_index (.valid [[(0 : ℚ)]]) (.valid ([] : List ChunkMeta)) ≠
      StoreState.emptyStore := by
  constructor
  · decide
  · intro h
    have : ([[(0 : ℚ)]] : List Vec) = [] := congrArg StoreState.index h
    exact List.noConfusion this

/-- C1 amended: `_load_index` reinitializes both structures empty exactly when
a file is missing or reading raises; two successfully read files are kept as
loaded, with no count-consistency check — a handle-count mismatch is silently
kept, not treated as corruption. -/
theorem load_index_amended_spec (v : List Vec) (m : List ChunkMeta)
    (index_file : StoredFile (List Vec))
    (metadata_file : StoredFile (List ChunkMeta)) :
    load_index (.valid v) (.valid m) = ⟨v, m⟩ ∧
    (index_file.read = none ∨ metadata_file.read = none →
      load_index index_file metadata_file = StoreState.emptyStore) := by
  constructor
  · rfl
  · intro h
    cases index_file with
    | absent => rfl
    | corrupt =>
      cases metadata_file with
      | absent => rfl
      | corrupt => rfl
      | valid m2 => rfl
    | valid v2 =>
      cases metadata_file with
      | absent => rfl
      | corrupt => rfl
      | valid m2 =>
        rcases h with h | h
        · exact absurd h (by simp [StoredFile.read])
        · exact absurd h (by simp [StoredFile.read])

/-- Witness for the amended C1: mismatched-but-readable files are kept as
loaded; a corrupt metadata file resets the store. -/
theorem load_index_amended_spec_witness :
    load_index (.valid [[(0 : ℚ)]]) (.valid ([] : List ChunkMeta)) =
      ⟨[[(0 : ℚ)]], []⟩ ∧
    load_index (.valid [[(0 : ℚ)]]) (.corrupt : StoredFile (List ChunkMeta)) =
      StoreState.emptyStore := by
  constructor
  · exact (load_index_amended_spec [[(0 : ℚ)]] [] .absent .absent).1
  · exact (load_index_amended_spec [] [] (.valid [[(0 : ℚ)]]) .corrupt).2
      (Or.inr rfl)

/-- The three outputs of the chunk loop count, respectively, the chunks whose
embedding succeeded (twice, in lock-step) and the chunks whose embedding
failed. -/
theorem process_chunks_counts (embed : String → Except String Vec)
    (dm : DocMetadata) (nchunks : Nat) :
    ∀ (chunks : List String) (i meta_len : Nat),
      (process_chunks embed dm nchunks chunks i meta_len).1.length =
        chunks.countP (fun c => embed_ok (embed c)) ∧
      (process_chunks embed dm nchunks chunks i meta_len).2.1.length =
        chunks.countP (fun c => embed_ok (embed c)) ∧
      (process_chunks embed dm nchunks chunks i meta_len).2.2.length =
        chunks.countP (fun c => !embed_ok (embed c)) := by
  intro chunks
  induction chunks with
  | nil => intro i meta_len; simp [process_chunks]
  | cons chunk rest ih =>
    intro i meta_len
    cases he : embed chunk with
    | ok v =>
      simp [process_chunks, he, List.countP_cons, embed_ok, ih (i + 1) (meta_len + 1)]
    | error e =>
      simp [process_chunks, he, List.countP_cons, embed_ok, ih (i + 1) meta_len]

/-- C4: `add_documents` fails wholesale exactly when zero chunks embed
successfully (a single chunk's embedding failure never aborts the batch);
on success it reports the count of ingested chunks and one logged skip
message per failed chunk, and appends exactly the successes to both the
index and the metadata list. -/
theorem add_documents_spec (embed : String → Except String Vec)
    (chunks : List String) (dm : DocMetadata) (st : StoreState) :
    ((∃ e, add_documents embed chunks dm st = .error e) ↔
      chunks.countP (fun c => embed_ok (embed c)) = 0) ∧
    (∀ r, add_documents embed chunks dm st = .ok r →
      r.ingested = chunks.countP (fun c => embed_ok (embed c)) ∧
      r.skipped.length = chunks.countP (fun c => !embed_ok (embed c)) ∧
      r.state.index.length = st.index.length + r.ingested ∧
      r.state.metadata.length = st.metadata.length + r.ingested) := by
  have counts := process_chunks_counts embed dm chunks.length chunks 0 st.metadata.length
  constructor
  · constructor
    · rintro ⟨e, he⟩
      unfold add_documents at he
      by_cases hc : chunks.isEmpty
      · rw [List.isEmpty_iff] at hc
        subst hc
        simp
      · rw [if_neg hc] at he
        by_cases hr : (process_chunks embed dm chunks.length chunks 0 st.metadata.length).1.isEmpty
        · rw [List.isEmpty_iff] at hr
          rw [← counts.1, hr]
          rfl
        · rw [if_neg hr] at he
          exact Except.noConfusion he
    · intro h0
      unfold add_documents
      by_cases hc : chunks.isEmpty
      · rw [if_pos hc]
        exact ⟨_, rfl⟩
      · rw [if_neg hc]
        have hr : (process_chunks embed dm chunks.length chunks 0 st.metadata.length).1.isEmpty := by
          rw [List.isEmpty_iff, ← List.length_eq_zero, counts.1]
          exact h0
        rw [if_pos hr]
        exact ⟨_, rfl⟩
  · intro r hr
    unfold add_documents at hr
    by_cases hc : chunks.isEmpty
    · rw [if_pos hc] at hr
      exact Except.noConfusion hr
    · rw [if_neg hc] at hr
      by_cases hr1 : (process_chunks embed dm chunks.length chunks 0 st.metadata.length).1.isEmpty
      · rw [if_pos hr1] at hr
        exact Except.noConfusion hr
      · rw [if_neg hr1] at hr
        injection hr with hr
        subst hr
        refine ⟨counts.1, counts.2.2, by simp, by simp [counts.1, counts.2.1]⟩

/-- Witness for C4: on `["alpha", "bad"]` the batch succeeds with one ingested
chunk and one skip message; on `["bad"]` alone the call fails wholesale. -/
theorem add_documents_spec_witness :
    (addOutcomeW.ingested = ["alpha", "bad"].countP (fun c => embed_ok (embedW c)) ∧
      addOutcomeW.skipped.length = ["alpha", "bad"].countP (fun c => !embed_ok (embedW c)) ∧
      addOutcomeW.state.index.length = StoreState.emptyStore.index.length + addOutcomeW.ingested ∧
      addOutcomeW.state.metadata.length = StoreState.emptyStore.metadata.length + addOutcomeW.ingested) ∧
    (∃ e, add_documents embedW ["bad"] dmW StoreState.emptyStore = .error e) := by
  constructor
  · exact (add_documents_spec embedW ["alpha", "bad"] dmW StoreState.emptyStore).2
      addOutcomeW rfl
  · exact (add_documents_spec embedW ["bad"] dmW StoreState.emptyStore).1.mpr
      (by decide)

/-- On success, `add_documents` appends exactly the loop's embeddings to the
index and exactly its records to the metadata list. -/
theorem add_documents_ok_state (embed : String → Except String Vec)
    (chunks : List String) (dm : DocMetadata) (st : StoreState)
    (r : IngestOutcome) (h : add_documents embed chunks dm st = .ok r) :
    r.state.index = st.index ++ (process_chunks embed dm chunks.length chunks 0 st.metadata.length).1 ∧
    r.state.metadata = st.metadata ++ (process_chunks embed dm chunks.length chunks 0 st.metadata.length).2.1 := by
  unfold add_documents at h
  by_cases hc : chunks.isEmpty
  · rw [if_pos hc] at h
    exact Except.noConfusion h
  · rw [if_neg hc] at h
    by_cases h1 : (process_chunks embed dm chunks.length chunks 0 st.metadata.length).1.isEmpty
    · rw [if_pos h1] at h
      exact Except.noConfusion h
    · rw [if_neg h1] at h
      injection h with h
      subst h
      exact ⟨rfl, rfl⟩

/-- One `add_documents` call preserves the lock-step between index rows and
metadata records. -/
theorem apply_call_lockstep (st : StoreState) (call : AddCall)
    (h : st.index.length = st.metadata.length) :
    (apply_call st call).index.length = (apply_call st call).metadata.length := by
  unfold apply_call
  cases hadd : add_documents call.embed call.chunks call.dm st with
  | error e => exact h
  | ok r =>
    obtain ⟨h1, h2⟩ := add_documents_ok_state call.embed call.chunks call.dm st r hadd
    have counts := process_chunks_counts call.embed call.dm call.chunks.length
      call.chunks 0 st.metadata.length
    simp [h1, h2, counts.1, counts.2.1, h]

/-- The lock-step invariant is preserved by any sequence of calls. -/
theorem run_calls_lockstep_aux :
    ∀ (calls : List AddCall) (st : StoreState),
      st.index.length = st.metadata.length →
      (calls.foldl apply_call st).index.length =
        (calls.foldl apply_call st).metadata.length := by
  intro calls
  induction calls with
  | nil => intro st h; exact h
  | cons call rest ih =>
    intro st h
    exact ih (apply_call st call) (apply_call_lockstep st call h)

/-- Every search result's handle is a valid metadata position: the Python
bound guard `idx < len(self.metadata)` makes this hold for any state. -/
theorem search_handle_bound (st : StoreState) (qv : Vec) (k : Nat) :
    ∀ r ∈ search_state st qv k, r.handle < st.metadata.length := by
  intro r hr
  unfold search_state at hr
  by_cases he : st.metadata.isEmpty
  · rw [if_pos he] at hr
    exact absurd hr (List.not_mem_nil r)
  · rw [if_neg he] at hr
    obtain ⟨p, _, hfp⟩ := List.mem_filterMap.mp hr
    rcases Option.map_eq_some'.mp hfp with ⟨m, hm, hgm⟩
    obtain ⟨hlt, _⟩ := List.getElem?_eq_some.mp hm
    subst hgm
    exact hlt

/-! ### Theorems for claims C2, C6, C7 -/

/-- C2: after any sequence of `add_documents` calls on a store that started
empty, the metadata count equals the index's vector count, `get_stats`
reports exactly that count, and every search result's handle lies in
`[0, total_fragments)`. -/
theorem run_calls_invariant (calls : List AddCall) (qv : Vec) (k : Nat) :
    (run_calls calls).index.length = (run_calls calls).metadata.length ∧
    (get_stats (run_calls calls)).total_vectors = (run_calls calls).metadata.length ∧
    ∀ r ∈ search_state (run_calls calls) qv k,
      r.handle < (get_stats (run_calls calls)).total_vectors :=
  ⟨run_calls_lockstep_aux calls StoreState.emptyStore rfl, rfl,
   fun r hr => search_handle_bound (run_calls calls) qv k r hr⟩

/-- Witness for C2: after one call ingesting one chunk, the returned search
result's handle 0 is below the stats' total of 1. -/
theorem run_calls_invariant_witness :
    fragW.handle < (get_stats (run_calls callsW)).total_vectors :=
  (run_calls_invariant callsW [(0 : ℚ)] 1).2.2 fragW (List.Mem.head _)

/-- C6: for a non-empty store and `k` at most the stored-vector count, search
results are in non-decreasing distance order and each result's similarity
equals `1 / (1 + distance)`. -/
theorem search_ordering_spec (st : StoreState) (qv : Vec) (k : Nat)
    (hne : st.metadata ≠ []) (hk : k ≤ st.metadata.length) :
    (search_state st qv k).Pairwise (fun a b => a.distance ≤ b.distance) ∧
    ∀ r ∈ search_state st qv k, r.similarity_score = 1 / (1 + r.distance) := by
  have hcond : ¬(st.metadata.isEmpty = true) :=
    fun h => hne (List.isEmpty_iff.mp h)
  have hsorted : List.Pairwise distLE
      (((enum_from 0 st.index).map (fun p => (p.1, sq_dist qv p.2))).insertionSort distLE) :=
    List.sorted_insertionSort distLE _
  have htake : List.Pairwise distLE
      ((((enum_from 0 st.index).map (fun p => (p.1, sq_dist qv p.2))).insertionSort distLE).take
        (min k st.metadata.length)) :=
    List.Pairwise.sublist (List.take_sublist _ _) hsorted
  constructor
  · unfold search_state
    rw [if_neg hcond]
    refine List.pairwise_filterMap.mpr (htake.imp ?_)
    intro a b hab r hr r' hr'
    rcases Option.map_eq_some'.mp hr with ⟨m, _, hgm⟩
    rcases Option.map_eq_some'.mp hr' with ⟨m', _, hgm'⟩
    subst hgm
    subst hgm'
    exact hab
  · intro r hr
    unfold search_state at hr
    rw [if_neg hcond] at hr
    obtain ⟨p, _, hfp⟩ := List.mem_filterMap.mp hr
    rcases Option.map_eq_some'.mp hfp with ⟨m, _, hgm⟩
    subst hgm
    rfl

/-- Witness for C6 at the concrete two-vector store with `k = 2`. -/
theorem search_ordering_spec_witness :
    (search_state stW [(1 : ℚ)] 2).Pairwise (fun a b => a.distance ≤ b.distance) ∧
    ∀ r ∈ search_state stW [(1 : ℚ)] 2, r.similarity_score = 1 / (1 + r.distance) :=
  search_ordering_spec stW [(1 : ℚ)] 2 (by decide) (by decide)

/-- C7: searching an empty store returns the empty list for every query and
`k`; on a non-empty store `k` is clamped, so at most
`min k (number of stored vectors)` results come back. -/
theorem search_empty_clamp_spec (st : StoreState) (qv : Vec) (k : Nat) :
    (st.metadata = [] → search_state st qv k = []) ∧
    (st.metadata ≠ [] →
      (search_state st qv k).length ≤ k ∧
      (search_state st qv k).length ≤ st.metadata.length) := by
  constructor
  · intro h
    unfold search_state
    rw [if_pos (List.isEmpty_iff.mpr h)]
  · intro hne
    have hcond : ¬(st.metadata.isEmpty = true) :=
      fun h => hne (List.isEmpty_iff.mp h)
    unfold search_state
    rw [if_neg hcond]
    have hlen : (faiss_search st.index qv (min k st.metadata.length)).length ≤
        min k st.metadata.length := by
      unfold faiss_search
      rw [List.length_take]
      exact Nat.min_le_left _ _
    constructor
    · exact le_trans (le_trans (List.length_filterMap_le _ _) hlen) (Nat.min_le_left _ _)
    · exact le_trans (le_trans (List.length_filterMap_le _ _) hlen) (Nat.min_le_right _ _)

/-- Witness for C7: the empty store returns no results for `k = 5`; the
two-vector store returns at most `min 5 2` results. -/
theorem search_empty_clamp_spec_witness :
    search_state StoreState.emptyStore [(1 : ℚ)] 5 = [] ∧
    (search_state stW [(1 : ℚ)] 5).length ≤ 5 ∧
    (search_state stW [(1 : ℚ)] 5).length ≤ stW.metadata.length := by
  constructor
  · exact (search_empty_clamp_spec StoreState.emptyStore [(1 : ℚ)] 5).1 rfl
  · exact (search_empty_clamp_spec stW [(1 : ℚ)] 5).2 (by decide)

/-- `index_one` never touches `status` or `agencies_searched`, and only ever
appends to `errors`. -/
theorem index_one_frame (indexDoc : String → Except String Unit)
    (acc : RunOutcome) (f : String) :
    (index_one indexDoc acc f).status = acc.status ∧
    (index_one indexDoc acc f).agencies_searched = acc.agencies_searched ∧
    ∀ x ∈ acc.errors, x ∈ (index_one indexDoc acc f).errors := by
  unfold index_one
  cases indexDoc f with
  | ok u => exact ⟨rfl, rfl, fun x hx => hx⟩
  | error e => exact ⟨rfl, rfl, fun x hx => List.mem_append_left _ hx⟩

/-- Folding `index_one` over any file list keeps `status` and
`agencies_searched` and only appends to `errors`. -/
theorem foldl_index_one_frame (indexDoc : String → Except String Unit) :
    ∀ (files : List String) (acc : RunOutcome),
      (files.foldl (index_one indexDoc) acc).status = acc.status ∧
      (files.foldl (index_one indexDoc) acc).agencies_searched = acc.agencies_searched ∧
      ∀ x ∈ acc.errors, x ∈ (files.foldl (index_one indexDoc) acc).errors := by
  intro files
  induction files with
  | nil => intro acc; exact ⟨rfl, rfl, fun x hx => hx⟩
  | cons f fs ih =>
    intro acc
    have h1 := index_one_frame indexDoc acc f
    have h2 := ih (index_one indexDoc acc f)
    exact ⟨h2.1.trans h1.1, h2.2.1.trans h1.2.1,
           fun x hx => h2.2.2 x (h1.2.2 x hx)⟩

/-- `process_agency` keeps `status`, appends exactly the agency to
`agencies_searched`, and only appends to `errors`. -/
theorem process_agency_frame (download : String → Except String (List String))
    (indexDoc : String → Except String Unit) (acc : RunOutcome) (agency : String) :
    (process_agency download indexDoc acc agency).status = acc.status ∧
    (process_agency download indexDoc acc agency).agencies_searched =
      acc.agencies_searched ++ [agency] ∧
    ∀ x ∈ acc.errors, x ∈ (process_agency download indexDoc acc agency).errors := by
  unfold process_agency
  cases download agency with
  | error e => exact ⟨rfl, rfl, fun x hx => List.mem_append_left _ hx⟩
  | ok files =>
    cases files with
    | nil => exact ⟨rfl, rfl, fun x hx => List.mem_append_left _ hx⟩
    | cons f fs =>
      have h := foldl_index_one_frame indexDoc (f :: fs)
        { acc with
            agencies_searched := acc.agencies_searched ++ [agency],
            documents_downloaded := acc.documents_downloaded ++ (f :: fs) }
      exact ⟨h.1, h.2.1, fun x hx => h.2.2 x hx⟩

/-- An agency whose download comes back empty contributes a
"No documents found" error entry. -/
theorem process_agency_no_docs (download : String → Except String (List String))
    (indexDoc : String → Except String Unit) (acc : RunOutcome) (agency : String)
    (h : download agency = .ok []) :
    (agency ++ ": No documents found") ∈
      (process_agency download indexDoc acc agency).errors := by
  unfold process_agency
  rw [h]
  exact List.mem_append_right _ (List.mem_singleton.mpr rfl)

/-- Folding `process_agency` over a list of agencies keeps `status`, appends
exactly that list to `agencies_searched`, only appends to `errors`, and adds
a "No documents found" entry for every agency with an empty download. -/
theorem foldl_process_agency_props (download : String → Except String (List String))
    (indexDoc : String → Except String Unit) :
    ∀ (ags : List String) (acc : RunOutcome),
      (ags.foldl (process_agency download indexDoc) acc).status = acc.status ∧
      (ags.foldl (process_agency download indexDoc) acc).agencies_searched =
        acc.agencies_searched ++ ags ∧
      (∀ x ∈ acc.errors, x ∈ (ags.foldl (process_agency download indexDoc) acc).errors) ∧
      ∀ a ∈ ags, download a = .ok [] →
        (a ++ ": No documents found") ∈
          (ags.foldl (process_agency download indexDoc) acc).errors := by
  intro ags
  induction ags with
  | nil =>
    intro acc
    refine ⟨rfl, by simp, fun x hx => hx, ?_⟩
    intro a ha
    exact absurd ha (List.not_mem_nil a)
  | cons a rest ih =>
    intro acc
    simp only [List.foldl_cons]
    have h1 := process_agency_frame download indexDoc acc a
    have h2 := ih (process_agency download indexDoc acc a)
    refine ⟨h2.1.trans h1.1, ?_, fun x hx => h2.2.2.1 x (h1.2.2 x hx), ?_⟩
    · rw [h2.2.1, h1.2.1]
      simp
    · intro b hb hdl
      rcases List.mem_cons.mp hb with hb | hb
      · subst hb
        exact h2.2.2.1 _ (process_agency_no_docs download indexDoc acc b hdl)
      · exact h2.2.2.2 b hb hdl

/-- C5: with at least one valid source, `retrieve_and_index` always reports
`status = "success"` (item- and source-level failures never abort or change
the status); unknown sources are filtered before the loop so exactly the
valid ones are searched; a source downloading zero documents adds a
"No documents found" error entry while the status stays "success"; and in
the concrete 1-of-5-failures run the outcome is `status = "success"`,
`documents_indexed = 4`, with exactly one error entry. -/
theorem retrieve_and_index_spec (download : String → Except String (List String))
    (indexDoc : String → Except String Unit) (drug : String)
    (agencies : Option (List String)) :
    (valid_of agencies ≠ [] →
      (retrieve_and_index download indexDoc drug agencies).status = "success" ∧
      (retrieve_and_index download indexDoc drug agencies).agencies_searched =
        valid_of agencies) ∧
    (valid_of agencies ≠ [] → ∀ a ∈ valid_of agencies, download a = .ok [] →
      ((a ++ ": No documents found") ∈
        (retrieve_and_index download indexDoc drug agencies).errors ∧
       (retrieve_and_index download indexDoc drug agencies).status = "success")) ∧
    ((retrieve_and_index downloadW5 indexW5 "DrugX" (some ["FDA"])).status = "success" ∧
      (retrieve_and_index downloadW5 indexW5 "DrugX" (some ["FDA"])).documents_indexed = 4 ∧
      (retrieve_and_index downloadW5 indexW5 "DrugX" (some ["FDA"])).errors.length = 1) := by
  have main : valid_of agencies ≠ [] →
      (retrieve_and_index download indexDoc drug agencies).status = "success" ∧
      (retrieve_and_index download indexDoc drug agencies).agencies_searched =
        valid_of agencies ∧
      ∀ a ∈ valid_of agencies, download a = .ok [] →
        (a ++ ": No documents found") ∈
          (retrieve_and_index download indexDoc drug agencies).errors := by
    intro hne
    have hcond : ¬((valid_of agencies).isEmpty = true) :=
      fun h => hne (List.isEmpty_iff.mp h)
    unfold retrieve_and_index
    rw [if_neg hcond]
    have h := foldl_process_agency_props download indexDoc (valid_of agencies)
      { status := "success", error_msg := none, drug_name := drug,
        agencies_searched := [], documents_downloaded := [],
        documents_indexed := 0, errors := [] }
    refine ⟨h.1, ?_, ?_⟩
    · rw [h.2.1]
      simp
    · intro a ha hdl
      exact h.2.2.2 a ha hdl
  refine ⟨fun hne => ⟨(main hne).1, (main hne).2.1⟩, ?_, by decide⟩
  intro hne a ha hdl
  exact ⟨(main hne).2.2 a ha hdl, (main hne).1⟩

/-- Witness for C5: the concrete single-source runs discharge the
hypotheses — FDA is a valid source, and with an empty download the outcome
records the "No documents found" entry while staying successful. -/
theorem retrieve_and_index_spec_witness :
    ((retrieve_and_index downloadW5 indexW5 "DrugX" (some ["FDA"])).status = "success" ∧
      (retrieve_and_index downloadW5 indexW5 "DrugX" (some ["FDA"])).agencies_searched =
        valid_of (some ["FDA"])) ∧
    (("FDA" ++ ": No documents found") ∈
        (retrieve_and_index downloadNone indexW5 "DrugX" (some ["FDA"])).errors ∧
      (retrieve_and_index downloadNone indexW5 "DrugX" (some ["FDA"])).status = "success") := by
  constructor
  · exact (retrieve_and_index_spec downloadW5 indexW5 "DrugX" (some ["FDA"])).1 (by decide)
  · exact (retrieve_and_index_spec downloadNone indexW5 "DrugX" (some ["FDA"])).2.1
      (by decide) "FDA" (by decide) rfl

/-- Looking a key up after `add_to_group` finds the appended chunk under its
key and leaves every other key unchanged. -/
theorem group_lookup_add_to_group (gs : List (String × List ContextChunk))
    (k : String) (c : ContextChunk) (a : String) :
    group_lookup (add_to_group gs k c) a =
      if k = a then some (((group_lookup gs a).getD []) ++ [c])
      else group_lookup gs a := by
  induction gs with
  | nil =>
    by_cases h : k = a
    · simp [add_to_group, group_lookup, h]
    · simp [add_to_group, group_lookup, h]
  | cons p rest ih =>
    obtain ⟨b, l⟩ := p
    by_cases hbk : b = k
    · subst hbk
      by_cases hba : b = a
      · subst hba
        simp [add_to_group, group_lookup]
      · simp [add_to_group, group_lookup, hba]
    · by_cases hba : b = a
      · subst hba
        simp [add_to_group, group_lookup, hbk, Ne.symm hbk]
      · simp [add_to_group, group_lookup, hbk, hba, ih]

/-- Folding the organizer over chunks extends each group by exactly the
chunks whose extracted agency matches, in retrieval order. -/
theorem group_lookup_organize_aux :
    ∀ (cs : List ContextChunk) (gs : List (String × List ContextChunk)) (a : String),
      group_lookup (cs.foldl (fun g c => add_to_group g (extract_agency c) c) gs) a =
        match group_lookup gs a with
        | some l => some (l ++ cs.filter (fun c => extract_agency c == a))
        | none =>
          if (cs.filter (fun c => extract_agency c == a)).isEmpty then none
          else some (cs.filter (fun c => extract_agency c == a)) := by
  intro cs
  induction cs with
  | nil =>
    intro gs a
    cases h : group_lookup gs a <;> simp [h]
  | cons c rest ih =>
    intro gs a
    simp only [List.foldl_cons]
    rw [ih (add_to_group gs (extract_agency c) c) a]
    rw [group_lookup_add_to_group gs (extract_agency c) c a]
    by_cases hca : extract_agency c = a
    · rw [if_pos hca]
      cases h : group_lookup gs a with
      | some l => simp [h, List.filter_cons, hca]
      | none => simp [h, List.filter_cons, hca]
    · rw [if_neg hca]
      cases h : group_lookup gs a with
      | some l =>
        have hcb : (extract_agency c == a) = false := by
          simp [hca]
        simp [h, List.filter_cons, hcb]
      | none =>
        have hcb : (extract_agency c == a) = false := by
          simp [hca]
        simp [h, List.filter_cons, hcb]

/-- The group stored for `a` after organizing is exactly the (order
preserving) filter of the chunks extracting to `a`, absent iff empty. -/
theorem group_lookup_organize (cs : List ContextChunk) (a : String) :
    group_lookup (organize_by_agency cs) a =
      if (cs.filter (fun c => extract_agency c == a)).isEmpty then none
      else some (cs.filter (fun c => extract_agency c == a)) := by
  have h := group_lookup_organize_aux cs [] a
  simpa [organize_by_agency, group_lookup] using h

/-- C9: the prompt's section list carries exactly one labeled section per
requested source, in `requested_sources` order: the source's first five
grouped fragments when its group is non-empty, or the explicit no-documents
marker when no fragment resolved to it; every docs section holds at most
five fragments. -/
theorem build_sections_spec (cs : List ContextChunk) (agencies : List String) :
    build_sections (organize_by_agency cs) agencies =
      agencies.map (fun a =>
        if (cs.filter (fun c => extract_agency c == a)).isEmpty then
          PromptSection.noDocs a
        else
          PromptSection.docs a ((cs.filter (fun c => extract_agency c == a)).take 5)) ∧
    (build_sections (organize_by_agency cs) agencies).map section_label = agencies ∧
    ∀ s ∈ build_sections (organize_by_agency cs) agencies,
      ∀ a l, s = PromptSection.docs a l → l.length ≤ 5 := by
  have hmap : build_sections (organize_by_agency cs) agencies =
      agencies.map (fun a =>
        if (cs.filter (fun c => extract_agency c == a)).isEmpty then
          PromptSection.noDocs a
        else
          PromptSection.docs a ((cs.filter (fun c => extract_agency c == a)).take 5)) := by
    unfold build_sections
    apply List.map_congr_left
    intro a _
    rw [group_lookup_organize]
    by_cases h : (cs.filter (fun c => extract_agency c == a)).isEmpty
    · rw [if_pos h, if_pos h]
    · rw [if_neg h, if_neg h]
  refine ⟨hmap, ?_, ?_⟩
  · rw [hmap, List.map_map]
    conv_rhs => rw [← List.map_id agencies]
    apply List.map_congr_left
    intro a _
    simp only [Function.comp_apply, id_eq]
    by_cases h : (cs.filter (fun c => extract_agency c == a)).isEmpty
    · rw [if_pos h]
      rfl
    · rw [if_neg h]
      rfl
  · intro s hs a l hsl
    rw [hmap] at hs
    obtain ⟨b, _, hb⟩ := List.mem_map.mp hs
    by_cases h : (cs.filter (fun c => extract_agency c == b)).isEmpty
    · rw [if_pos h] at hb
      rw [← hb] at hsl
      exact PromptSection.noConfusion hsl
    · rw [if_neg h] at hb
      rw [← hb] at hsl
      injection hsl with h1 h2
      subst h2
      rw [List.length_take]
      exact Nat.min_le_left _ _

/-- Witness for C9: at the one-chunk input with requested sources
["FDA", "EMA"], the FDA docs section holds at most five fragments and the
section labels are exactly the requested sources in order. -/
theorem build_sections_spec_witness :
    ([ctxW] : List ContextChunk).length ≤ 5 ∧
    (build_sections (organize_by_agency [ctxW]) ["FDA", "EMA"]).map section_label =
      ["FDA", "EMA"] := by
  constructor
  · exact (build_sections_spec [ctxW] ["FDA", "EMA"]).2.2
      (PromptSection.docs "FDA" [ctxW]) (by decide) "FDA" [ctxW] rfl
  · exact (build_sections_spec [ctxW] ["FDA", "EMA"]).2.1

end RegSearch
